import Mathlib

/-!
Verification development for the `runtoolsio/runner` phased job runner.

The embedding mirrors two source components:

* `src/runtools/runjob/phaser.py` — the `Phaser` state machine, shallowly
  embedded with explicit state passing.  Threads are modelled by a stop
  schedule: a list of booleans saying, for each configured phase, whether a
  concurrent `stop()` call lands while that phase's `run` is in flight.
  A phase's `run(ctx)` body is characterised by the outcome it eventually
  produces (normal return or one of the exception signals classified by
  `Phaser._run_handle_errors`).
* `src/runtools/runner/task.py` — the `OutputToTask` reconciliation of
  converted field maps against a task tracker.  The tracker itself lives in
  the `runcore` dependency; it is modelled from the spec's interface
  description (§3): `subtask(name, ts)` appends a new child when the name
  differs from the last child's name and otherwise returns that last child;
  `finished` marks completion; calls made on tasks are kept in logs so that
  the observable interaction sequence is part of the state.

Python truthiness, where the source relies on it (`if self._stop_status:`,
`if task:`, `if not completed and ...`), is made explicit: the
`TerminationStatus.NONE` member is falsy (the source initialises
`_stop_status` to it and branches on it), empty strings and the number 0 are
falsy, `None` (modelled by `Option.none`) is falsy, and any object (e.g. a
`TerminationInfo`) is truthy.
-/

/-- The `RunState` enumeration from `runcore` (spec §6 lists the recognised
members used by this core). -/
inductive RunState where
  | noneState
  | created
  | executing
  | ended
deriving DecidableEq, Repr

/-- The `TerminationStatus` enumeration (spec §3/§6): `NONE` plus the five real
terminal classifications.  `NONE` is falsy in the source's truthiness
checks. -/
inductive TerminationStatus where
  | noneStatus
  | completed
  | stopped
  | interrupted
  | failed
  | error
deriving DecidableEq, Repr

/-- Python truthiness of a `TerminationStatus` (`if self._stop_status:`):
every member except `NONE` is truthy. -/
def TerminationStatus.isSet : TerminationStatus → Bool
  | TerminationStatus.noneStatus => false
  | _ => true

/-- Structured fault payload carried by a `FailedRun` signal (spec §3). -/
structure Fault where
  category : String
  message : String
deriving DecidableEq, Repr

/-- A `RunError(category, message)` attached to unexpected exceptions
(`phaser.py` line 295). -/
structure RunError where
  category : String
  message : String
deriving DecidableEq, Repr

/-- A `TerminationInfo(status, finished_at, failure, error)` record (spec §3);
timestamps are modelled by the injected clock's counter value. -/
structure TerminationInfo where
  status : TerminationStatus
  finishedAt : Nat
  failure : Option Fault
  error : Option RunError
deriving DecidableEq, Repr

/-- A `PhaseRun(phase_id, run_state, started_at)` record — one lifecycle entry
(`phaser.py` line 313). -/
structure PhaseRun where
  phaseId : String
  runState : RunState
  startedAt : Nat
deriving DecidableEq, Repr

/-- The outcome a phase's `run(ctx)` eventually produces, one constructor per
branch of `Phaser._run_handle_errors` (`phaser.py` lines 284-304). -/
inductive PhaseOutcome where
  | normal
  | terminateRun (status : TerminationStatus)
  | failedRun (fault : Fault)
  | raiseExc (category : String) (message : String)
  | keyboardInterrupt
  | systemExit (code : Option Int)
deriving DecidableEq, Repr

/-- A configured (user) phase: identity, run state, declared `stop_status`,
and the behaviour of its `run` body. -/
structure Phase where
  id : String
  runState : RunState
  stopStatus : TerminationStatus
  outcome : PhaseOutcome
deriving DecidableEq, Repr

/-- The Phaser's current-phase cursor: the built-in `InitPhase` (`phaser.py`
lines 97-110), the built-in `TerminalPhase` (lines 113-126), or a user
phase. -/
inductive CurrentPhase where
  | init
  | terminal
  | user (p : Phase)
deriving DecidableEq, Repr

/-- Phase id, matching `InitPhase.ID = 'Init'` and `TerminalPhase.ID =
'term'`. -/
def CurrentPhase.phaseId : CurrentPhase → String
  | CurrentPhase.init => "Init"
  | CurrentPhase.terminal => "term"
  | CurrentPhase.user p => p.id

/-- Run state: `Init` is `CREATED`, `term` is `ENDED`. -/
def CurrentPhase.runState : CurrentPhase → RunState
  | CurrentPhase.init => RunState.created
  | CurrentPhase.terminal => RunState.ended
  | CurrentPhase.user p => p.runState

/-- The `stop_status`: `InitPhase` declares `STOPPED`, `TerminalPhase` declares
`NONE` (`phaser.py` lines 102, 118). -/
def CurrentPhase.stopStatus : CurrentPhase → TerminationStatus
  | CurrentPhase.init => TerminationStatus.stopped
  | CurrentPhase.terminal => TerminationStatus.noneStatus
  | CurrentPhase.user p => p.stopStatus

/-- Test `type(self._current_phase) == InitPhase` (`phaser.py` line 330). -/
def CurrentPhase.isInit : CurrentPhase → Bool
  | CurrentPhase.init => true
  | _ => false

/-- The lock-guarded mutable state of a `Phaser` (`phaser.py` lines
197-203), plus the injected clock counter and a log of every `phase.stop()`
invocation the Phaser makes (recorded by phase id). -/
structure PhaserState where
  lifecycle : List PhaseRun
  currentPhase : Option CurrentPhase
  stopStatus : TerminationStatus
  abort : Bool
  termination : Option TerminationInfo
  clock : Nat
  stopCalls : List String
deriving DecidableEq, Repr

/-- Fresh Phaser state (`Phaser.__init__`). -/
def PhaserState.initial : PhaserState :=
  { lifecycle := []
    currentPhase := Option.none
    stopStatus := TerminationStatus.noneStatus
    abort := false
    termination := Option.none
    clock := 0
    stopCalls := [] }

/-- A transition hook, receiving `(previous_run, current_run, phase_count)`;
it returns `true` when its invocation raises an exception. -/
def TransitionHook := Option PhaseRun → PhaseRun → Nat → Bool

/-- Phaser configuration: the ordered phase list and the optional transition
hook. -/
structure PhaserConfig where
  phases : List Phase
  hook : Option TransitionHook

/-- Exceptions that can escape a `Phaser` method. -/
inductive RunExc where
  | invalidState
  | phaseExc (category : String) (message : String)
  | keyboardInterrupt
  | systemExit (code : Option Int)
  | hookExc
deriving DecidableEq, Repr

namespace Phaser

/-- The `previous_run` of a lifecycle snapshot: the second-to-last entry. -/
def prevRunOf (lc : List PhaseRun) : Option PhaseRun :=
  lc.dropLast.getLast?

/-- Model of `Phaser._term_info` (`phaser.py` lines 223-224): build a
`TerminationInfo` from the timestamp generator, advancing the clock. -/
def termInfo (s : PhaserState) (st : TerminationStatus) (failure : Option Fault)
    (error : Option RunError) : TerminationInfo × PhaserState :=
  (⟨st, s.clock, failure, error⟩, { s with clock := s.clock + 1 })

/-- Model of `Phaser._next_phase` (`phaser.py` lines 306-317): set the cursor, append
a `PhaseRun`, then invoke the transition hook via
`execute_transition_hook_safely` (lines 319-322).  Despite its name, that
method has no exception handler, so the returned flag records that the
hook raised and the exception is propagating. -/
def nextPhase (cfg : PhaserConfig) (s : PhaserState) (p : CurrentPhase) :
    PhaserState × Bool :=
  let pr : PhaseRun := ⟨p.phaseId, p.runState, s.clock⟩
  let lc := s.lifecycle ++ [pr]
  let s' := { s with currentPhase := Option.some p, lifecycle := lc, clock := s.clock + 1 }
  match cfg.hook with
  | Option.none => (s', false)
  | Option.some h => (s', h (prevRunOf lc) pr lc.length)

/-- Model of `Phaser.prime` (`phaser.py` lines 231-235). -/
def prime (cfg : PhaserConfig) (s : PhaserState) : PhaserState × Option RunExc :=
  if s.currentPhase.isSome then (s, Option.some RunExc.invalidState)
  else
    let (s1, hr) := nextPhase cfg s CurrentPhase.init
    (s1, if hr then Option.some RunExc.hookExc else Option.none)

/-- Model of `Phaser.stop` (`phaser.py` lines 324-336).  Returns the new state and
whether a hook exception is propagating out of the call (possible only on
the not-started abort path, which transitions to Terminal).  The final
`self._current_phase.stop()` is recorded in `stopCalls`; it is skipped when
a hook exception is already propagating. -/
def stop (cfg : PhaserConfig) (s : PhaserState) : PhaserState × Bool :=
  if s.termination.isSome then (s, false)
  else
    let st := match s.currentPhase with
      | Option.none => TerminationStatus.stopped
      | Option.some cp => cp.stopStatus
    let s1 := { s with stopStatus := st }
    let (s2, hr) :=
      if s.currentPhase.isNone ∨ (s.currentPhase.map CurrentPhase.isInit).getD false then
        let (ti, sa) := termInfo s1 st Option.none Option.none
        nextPhase cfg { sa with abort := true, termination := Option.some ti }
          CurrentPhase.terminal
      else (s1, false)
    if hr then (s2, true)
    else
      ({ s2 with
          stopCalls := s2.stopCalls ++ [((s2.currentPhase.map CurrentPhase.phaseId).getD (""))] },
        false)

/-- Model of `Phaser._run_handle_errors` (`phaser.py` lines 284-304): run the phase
body and classify the outcome into `(term_info?, exception?)`.  On
`KeyboardInterrupt` the phase's own `stop()` is invoked (line 299). -/
def runHandleErrors (p : Phase) (s : PhaserState) :
    Option TerminationInfo × Option RunExc × PhaserState :=
  match p.outcome with
  | PhaseOutcome.normal => (Option.none, Option.none, s)
  | PhaseOutcome.terminateRun st =>
      let (ti, s') := termInfo s st Option.none Option.none
      (Option.some ti, Option.none, s')
  | PhaseOutcome.failedRun fault =>
      let (ti, s') := termInfo s TerminationStatus.failed (Option.some fault) Option.none
      (Option.some ti, Option.none, s')
  | PhaseOutcome.raiseExc cat msg =>
      let (ti, s') := termInfo s TerminationStatus.error Option.none
        (Option.some ⟨cat, msg⟩)
      (Option.some ti, Option.some (RunExc.phaseExc cat msg), s')
  | PhaseOutcome.keyboardInterrupt =>
      let s0 := { s with stopCalls := s.stopCalls ++ [p.id] }
      let (ti, s') := termInfo s0 TerminationStatus.interrupted Option.none Option.none
      (Option.some ti, Option.some RunExc.keyboardInterrupt, s')
  | PhaseOutcome.systemExit code =>
      let st := if code = Option.some 0 then TerminationStatus.completed
                else TerminationStatus.failed
      let (ti, s') := termInfo s st Option.none Option.none
      (Option.some ti, Option.some (RunExc.systemExit code), s')

/-- The phase loop of `Phaser.run` (`phaser.py` lines 257-282).  `stops`
schedules a concurrent `stop()` call during the phase at the matching
position.  After the loop, termination is recorded as `COMPLETED` and the
Phaser transitions to Terminal (lines 280-282). -/
def runLoop (cfg : PhaserConfig) (stops : List Bool) (phases : List Phase)
    (s : PhaserState) : PhaserState × Option RunExc :=
  match phases with
  | [] =>
      let (ti, s1) := termInfo s TerminationStatus.completed Option.none Option.none
      let (s2, hr) := nextPhase cfg { s1 with termination := Option.some ti }
        CurrentPhase.terminal
      (s2, if hr then Option.some RunExc.hookExc else Option.none)
  | p :: rest =>
      if s.abort then (s, Option.none)
      else
        let (s1, hr) := nextPhase cfg s (CurrentPhase.user p)
        if hr then (s1, Option.some RunExc.hookExc)
        else
          let s2 := if stops.headD false then (stop cfg s1).1 else s1
          let (tinfo, exc, s3) := runHandleErrors p s2
          let s4 :=
            if s3.stopStatus.isSet then
              let (ti, sa) := termInfo s3 s3.stopStatus Option.none Option.none
              { sa with termination := Option.some ti }
            else match tinfo with
              | Option.some ti => { s3 with termination := Option.some ti }
              | Option.none => s3
          match exc with
          | Option.some e =>
              let (s5, hr2) := nextPhase cfg s4 CurrentPhase.terminal
              (s5, Option.some (if hr2 then RunExc.hookExc else e))
          | Option.none =>
              if s4.termination.isSome then
                let (s5, hr2) := nextPhase cfg s4 CurrentPhase.terminal
                (s5, if hr2 then Option.some RunExc.hookExc else Option.none)
              else runLoop cfg stops.tail rest s4

/-- Model of `Phaser.run` (`phaser.py` lines 237-282): requires a prior `prime`,
then drives the configured phases through `runLoop`. -/
def run (cfg : PhaserConfig) (stops : List Bool) (s : PhaserState) :
    PhaserState × Option RunExc :=
  if s.currentPhase.isNone then (s, Option.some RunExc.invalidState)
  else runLoop cfg stops cfg.phases s

end Phaser

/-! ## Output→Task (`src/runtools/runner/task.py`) -/

/-- A converted field value: `convert_if_number` coerces numerics, otherwise
the original string is kept (`task.py` lines 29-31).  Python truthiness:
the number 0 and the empty string are falsy. -/
inductive FieldValue where
  | num (n : Int)
  | str (s : String)
deriving DecidableEq, Repr

/-- Truthiness of an optional field value (`None`, `0` and `""` are
falsy). -/
def FieldValue.otruthy : Option FieldValue → Bool
  | Option.none => false
  | Option.some (FieldValue.num n) => n ≠ 0
  | Option.some (FieldValue.str s) => s ≠ ""

/-- Truthiness of an optional string (`None` and `""` are falsy). -/
def struthy : Option String → Bool
  | Option.none => false
  | Option.some s => s ≠ ""

/-- A converted field map as produced by `field_conversion` (`task.py`
lines 23-36): keys with `None` values are dropped, so `Option.none` here
means the key is absent. -/
structure TaskFields where
  event : Option String
  task : Option String
  timestamp : Option Nat
  operation : Option String
  completed : Option FieldValue
  increment : Option FieldValue
  total : Option FieldValue
  unit : Option String
  result : Option String
deriving DecidableEq, Repr

/-- The field map with every key absent. -/
def TaskFields.empty : TaskFields :=
  ⟨Option.none, Option.none, Option.none, Option.none, Option.none,
   Option.none, Option.none, Option.none, Option.none⟩

/-- One recorded operation update: `task.operation(op_name, ts)` followed by
`op.update(amount, total, unit, increment, ts)` (`task.py` lines
115-116). -/
structure OpCall where
  name : Option String
  amount : Option FieldValue
  total : Option FieldValue
  unit : Option String
  isIncrement : Bool
  ts : Option Nat
deriving DecidableEq, Repr

/-- A tracker task (root or subtask), modelled from the spec's interface
description (§3): a name, an `is_finished` flag, and logs of the
`operation`/`event`/`finished` calls made on it. -/
structure TrackedTask where
  name : String
  isFinished : Bool
  ops : List OpCall
  events : List (String × Option Nat)
  doneCalls : List (Option String × Option Nat)
deriving DecidableEq, Repr

/-- A fresh subtask. -/
def TrackedTask.fresh (name : String) : TrackedTask :=
  ⟨name, false, [], [], []⟩

/-- The task tracker, modelled from the spec §3: a root task, the ordered
list of child subtasks, and a log of `tracker.subtask(name, ts)` calls. -/
structure TaskTracker where
  root : TrackedTask
  subtasks : List TrackedTask
  subtaskCalls : List (String × Option Nat)
deriving DecidableEq, Repr

/-- An empty tracker. -/
def TaskTracker.empty : TaskTracker :=
  ⟨TrackedTask.fresh (""), [], []⟩

/-- Which task the update targets: the root tracker or the tail subtask. -/
inductive TargetRef where
  | root
  | tailSub
deriving DecidableEq, Repr

/-- Replace the last element of a list (the tail subtask after
resolution). -/
def setLast (t : TrackedTask) : List TrackedTask → List TrackedTask
  | [] => [t]
  | [_] => [t]
  | x :: xs => x :: setLast t xs

/-- Read the current target task. -/
def TaskTracker.getTarget (tr : TaskTracker) : TargetRef → TrackedTask
  | TargetRef.root => tr.root
  | TargetRef.tailSub => (tr.subtasks.getLast?).getD tr.root

/-- Write back the (mutated) target task. -/
def TaskTracker.setTarget (tr : TaskTracker) (ref : TargetRef) (t : TrackedTask) :
    TaskTracker :=
  match ref with
  | TargetRef.root => { tr with root := t }
  | TargetRef.tailSub => { tr with subtasks := setLast t tr.subtasks }

/-- Result of the subtask-resolution step of `OutputToTask._update_task`
(`task.py` lines 82-93). -/
structure ResolvedTarget where
  tracker : TaskTracker
  ref : TargetRef
  cur : TrackedTask
  isFin : Bool
deriving DecidableEq, Repr

namespace OutputToTask

/-- Subtask resolution, `task.py` lines 82-93.  `if task:` is a truthiness
test, so an absent or empty `TASK` takes the else-branch.  When `TASK` is
truthy, `tracker.subtask(task, ts)` is called (modelled from spec §3: it
returns the tail subtask when its name equals `task`, else appends a
fresh child); `prev_task == current_task` then holds exactly when the tail
subtask existed and already had that name, which sets `is_finished`. -/
def resolveTarget (tr : TaskTracker) (fields : TaskFields) : ResolvedTarget :=
  let prev := tr.subtasks.getLast?
  if struthy fields.task then
    let name := fields.task.getD ("")
    let trc := { tr with subtaskCalls := tr.subtaskCalls ++ [(name, fields.timestamp)] }
    match prev with
    | Option.some t =>
        if t.name = name then ⟨trc, TargetRef.tailSub, t, true⟩
        else
          ⟨{ trc with subtasks := trc.subtasks ++ [TrackedTask.fresh name] },
            TargetRef.tailSub, TrackedTask.fresh name, false⟩
    | Option.none =>
        ⟨{ trc with subtasks := trc.subtasks ++ [TrackedTask.fresh name] },
          TargetRef.tailSub, TrackedTask.fresh name, false⟩
  else
    match prev with
    | Option.some t =>
        if ¬ t.isFinished then ⟨tr, TargetRef.tailSub, t, false⟩
        else ⟨tr, TargetRef.root, tr.root, false⟩
    | Option.none => ⟨tr, TargetRef.root, tr.root, false⟩

/-- Model of `OutputToTask._update_operation` (`task.py` lines 103-117).  The guard
`if not completed and not increment and not total and not unit` tests
truthiness, so absent, zero and empty values all count as missing.
`op_name` is `fields.get(OPERATION) or fields.get(EVENT)`; the amount is
`completed or increment`; the increment flag is `increment is not None`. -/
def updateOperation (fields : TaskFields) (t : TrackedTask) : TrackedTask × Bool :=
  let opName := if struthy fields.operation then fields.operation else fields.event
  if ¬ FieldValue.otruthy fields.completed ∧ ¬ FieldValue.otruthy fields.increment ∧
      ¬ FieldValue.otruthy fields.total ∧ ¬ struthy fields.unit then
    (t, false)
  else
    let amount := if FieldValue.otruthy fields.completed then fields.completed
                  else fields.increment
    ({ t with ops := t.ops ++
        [⟨opName, amount, fields.total, fields.unit, fields.increment.isSome,
          fields.timestamp⟩] },
      true)

/-- The update steps of `OutputToTask._update_task` after target resolution
(`task.py` lines 95-101): operation update, then `event` only when no
operation update occurred, then `finished` when `RESULT` is truthy or the
same-subtask sentinel was raised. -/
def applyUpdates (fields : TaskFields) (isFin : Bool) (cur : TrackedTask) :
    TrackedTask :=
  let (cur1, isOp) := updateOperation fields cur
  let cur2 := if struthy fields.event ∧ ¬ isOp then
      { cur1 with events := cur1.events ++ [(fields.event.getD (""), fields.timestamp)] }
    else cur1
  if struthy fields.result ∨ isFin then
    { cur2 with
        isFinished := true
        doneCalls := cur2.doneCalls ++ [(fields.result, fields.timestamp)] }
  else cur2

/-- Model of `OutputToTask._update_task` (`task.py` lines 81-101): resolve the target,
apply the updates, write the target back. -/
def updateTask (tr : TaskTracker) (fields : TaskFields) : TaskTracker :=
  let r := resolveTarget tr fields
  r.tracker.setTarget r.ref (applyUpdates fields r.isFin r.cur)

end OutputToTask

/-! ## Concrete fixtures used by the individual claim theorems -/

/-- A user phase `A` that returns normally. -/
def phaseA : Phase :=
  ⟨"A", RunState.executing, TerminationStatus.stopped, PhaseOutcome.normal⟩

/-- A user phase `B` that returns normally. -/
def phaseB : Phase :=
  ⟨"B", RunState.executing, TerminationStatus.stopped, PhaseOutcome.normal⟩

/-- Phaser configured with `[A, B]` and no transition hook. -/
def happyCfg : PhaserConfig := ⟨[phaseA, phaseB], Option.none⟩

/-- A transition hook that raises whenever the new current run is phase
`A`. -/
def hookRaisingOnA : TransitionHook := fun _ cur _ => cur.phaseId == "A"

/-- Phaser configured with `[A]` and no hook. -/
def cfgJustA : PhaserConfig := ⟨[phaseA], Option.none⟩

/-- Phaser configured with `[A]` and the raising hook installed. -/
def cfgJustAHook : PhaserConfig := ⟨[phaseA], Option.some hookRaisingOnA⟩

/-- A mid-run Phaser state: primed, currently executing user phase `A`,
no stop requested and no termination recorded. -/
def midRunState : PhaserState :=
  { lifecycle := [⟨"Init", RunState.created, 0⟩, ⟨"A", RunState.executing, 1⟩]
    currentPhase := Option.some (CurrentPhase.user phaseA)
    stopStatus := TerminationStatus.noneStatus
    abort := false
    termination := Option.none
    clock := 2
    stopCalls := [] }

/-! ## Claim theorems -/

/-- C3: happy path.  For the Phaser configured with phases `[A, B]` whose
`run` both return normally, after `prime()` then `run()` the lifecycle's
phase ids in order are `Init, A, B, term`, and the recorded termination
status is `COMPLETED` (and `run` returns normally). -/
theorem phaser_happy_path :
    ((Phaser.run happyCfg [] (Phaser.prime happyCfg PhaserState.initial).1).1.lifecycle.map
        PhaseRun.phaseId) = ["Init", "A", "B", "term"]
    ∧ (((Phaser.run happyCfg [] (Phaser.prime happyCfg PhaserState.initial).1).1.termination).map
        TerminationInfo.status) = Option.some TerminationStatus.completed
    ∧ (Phaser.run happyCfg [] (Phaser.prime happyCfg PhaserState.initial).1).2 = Option.none := by
  refine ⟨?_, ?_, ?_⟩ <;> rfl

/-- C1 (code bug): hook exceptions are not sandboxed.  With a transition
hook that raises when phase `A` becomes current, `run` propagates the
hook's exception: it neither returns normally nor records any termination,
the run stops at `A`'s transition, and the Terminal phase is never reached —
whereas the identical Phaser with no hook completes normally with
`COMPLETED`.  `Phaser.execute_transition_hook_safely` (`phaser.py` lines
319-322) contains no exception handler despite its name, so the sandboxing
the spec promises does not happen. -/
theorem phaser_hook_exception_escapes :
    (Phaser.prime cfgJustAHook PhaserState.initial).2 = Option.none
    ∧ (Phaser.run cfgJustAHook [] (Phaser.prime cfgJustAHook PhaserState.initial).1).2
        = Option.some RunExc.hookExc
    ∧ (Phaser.run cfgJustAHook [] (Phaser.prime cfgJustAHook PhaserState.initial).1).1.termination
        = Option.none
    ∧ ((Phaser.run cfgJustAHook [] (Phaser.prime cfgJustAHook PhaserState.initial).1).1.lifecycle.map
        PhaseRun.phaseId) = ["Init", "A"]
    ∧ (((Phaser.run cfgJustA [] (Phaser.prime cfgJustA PhaserState.initial).1).1.termination).map
        TerminationInfo.status) = Option.some TerminationStatus.completed
    ∧ (Phaser.run cfgJustA [] (Phaser.prime cfgJustA PhaserState.initial).1).2 = Option.none := by
  refine ⟨?_, ?_, ?_, ?_, ?_, ?_⟩ <;> rfl

/-- Phaser configured with an empty phase list and no hook. -/
def cfgEmpty : PhaserConfig := ⟨[], Option.none⟩

/-- A phase signalling `TerminateRun` with the `NONE` status. -/
def phaseTermNone : Phase :=
  ⟨"A", RunState.executing, TerminationStatus.stopped,
    PhaseOutcome.terminateRun TerminationStatus.noneStatus⟩

/-- Phaser configured with the `TerminateRun(NONE)` phase and no hook. -/
def cfgTermNone : PhaserConfig := ⟨[phaseTermNone], Option.none⟩

/-- A phase raising `SystemExit` with a `None` exit code. -/
def phaseExitNone : Phase :=
  ⟨"A", RunState.executing, TerminationStatus.stopped,
    PhaseOutcome.systemExit Option.none⟩

/-- C5 counterexample: a phase that signals `TerminateRun` with the `NONE`
status makes `run` finish normally with a non-null termination whose status
is `NONE` — not one of {COMPLETED, STOPPED, INTERRUPTED, FAILED, ERROR}.
`Phaser.run` adopts `_term_info(e.term_status)` without filtering
(`phaser.py` lines 289-290, 269-270). -/
theorem phaser_termination_status_none_cx :
    (Phaser.run cfgTermNone [] (Phaser.prime cfgTermNone PhaserState.initial).1).2 = Option.none
    ∧ ((Phaser.run cfgTermNone [] (Phaser.prime cfgTermNone PhaserState.initial).1).1.lifecycle.map
        PhaseRun.phaseId) = ["Init", "A", "term"]
    ∧ (((Phaser.run cfgTermNone [] (Phaser.prime cfgTermNone PhaserState.initial).1).1.termination).map
        TerminationInfo.status) = Option.some TerminationStatus.noneStatus
    ∧ TerminationStatus.noneStatus ∉
        [TerminationStatus.completed, TerminationStatus.stopped,
         TerminationStatus.interrupted, TerminationStatus.failed,
         TerminationStatus.error] := by
  refine ⟨rfl, rfl, rfl, ?_⟩
  decide

/-- C9 counterexample: on a Phaser with an *empty* phase list, `stop()`
before `prime` records `STOPPED` and Terminal, but a subsequent `run()` is
neither a no-op nor an invalid-state failure: the `for` loop body (which
holds the abort check, `phaser.py` line 259) never executes, so the final
block overwrites the termination with `COMPLETED` and appends a second
Terminal entry. -/
theorem phaser_stop_unprimed_empty_cx :
    (((Phaser.stop cfgEmpty PhaserState.initial).1.termination).map TerminationInfo.status)
      = Option.some TerminationStatus.stopped
    ∧ (Phaser.run cfgEmpty [] (Phaser.stop cfgEmpty PhaserState.initial).1).2 = Option.none
    ∧ (((Phaser.run cfgEmpty [] (Phaser.stop cfgEmpty PhaserState.initial).1).1.termination).map
        TerminationInfo.status) = Option.some TerminationStatus.completed
    ∧ ((Phaser.run cfgEmpty [] (Phaser.stop cfgEmpty PhaserState.initial).1).1.lifecycle.map
        PhaseRun.phaseId) = ["term", "term"] := by
  refine ⟨?_, ?_, ?_, ?_⟩ <;> rfl

/-- C9 (amended): `stop()` on a never-primed Phaser records termination
`STOPPED` and moves immediately to Terminal; a subsequent `run()` on a
Phaser with a *non-empty* phase list returns immediately as an exact no-op:
the abort flag short-circuits the first loop iteration (`phaser.py` lines
259-260), no phase executes and the state (including the termination) is
returned unchanged. -/
theorem phaser_stop_before_prime_noop (cfg : PhaserConfig) (p : Phase)
    (rest : List Phase) (stops : List Bool)
    (hp : cfg.phases = p :: rest) (hh : cfg.hook = Option.none) :
    (((Phaser.stop cfg PhaserState.initial).1.termination).map TerminationInfo.status)
      = Option.some TerminationStatus.stopped
    ∧ (Phaser.stop cfg PhaserState.initial).1.currentPhase
      = Option.some CurrentPhase.terminal
    ∧ Phaser.run cfg stops (Phaser.stop cfg PhaserState.initial).1
      = ((Phaser.stop cfg PhaserState.initial).1, Option.none) := by
  refine ⟨?_, ?_, ?_⟩ <;>
    simp [Phaser.stop, Phaser.run, Phaser.runLoop, Phaser.nextPhase, Phaser.termInfo,
      PhaserState.initial, hp, hh, CurrentPhase.phaseId, CurrentPhase.runState]

/-- C9 witness: the amended no-op behaviour at the concrete one-phase
configuration `[A]`. -/
theorem phaser_stop_before_prime_noop_witness :
    cfgJustA.phases = phaseA :: [] ∧ cfgJustA.hook = Option.none ∧
    ((((Phaser.stop cfgJustA PhaserState.initial).1.termination).map TerminationInfo.status)
      = Option.some TerminationStatus.stopped
    ∧ (Phaser.stop cfgJustA PhaserState.initial).1.currentPhase
      = Option.some CurrentPhase.terminal
    ∧ Phaser.run cfgJustA [] (Phaser.stop cfgJustA PhaserState.initial).1
      = ((Phaser.stop cfgJustA PhaserState.initial).1, Option.none)) :=
  ⟨rfl, rfl, phaser_stop_before_prime_noop cfgJustA phaseA [] [] rfl rfl⟩

/-- C8 counterexample: a second `stop()` call is not free of further effect.
On a mid-run state (user phase `A` current, no termination recorded) the
first `stop()` invokes `A.stop()`; the second call passes the
`if self._termination` guard again (`phaser.py` line 326) and invokes
`A.stop()` a second time, so the resulting states differ. -/
theorem phaser_stop_second_call_effect_cx :
    (Phaser.stop cfgJustA midRunState).1.stopCalls = ["A"]
    ∧ (Phaser.stop cfgJustA (Phaser.stop cfgJustA midRunState).1).1.stopCalls = ["A", "A"]
    ∧ (Phaser.stop cfgJustA (Phaser.stop cfgJustA midRunState).1).1
        ≠ (Phaser.stop cfgJustA midRunState).1 := by
  refine ⟨?_, ?_, ?_⟩ <;> decide

/-- C8 (amended): repeated `stop()` calls are idempotent on the Phaser's
lock-guarded state: a second consecutive `stop()` leaves `_stop_status`,
`_abort`, `_termination`, the lifecycle and the current phase unchanged
(once termination is recorded it returns immediately; before that it merely
re-assigns the same `_stop_status` — but it does re-invoke the current
phase's `stop()`, see the counterexample). -/
theorem phaser_stop_state_idempotent (cfg : PhaserConfig) (s : PhaserState)
    (hh : cfg.hook = Option.none) :
    (Phaser.stop cfg (Phaser.stop cfg s).1).1.stopStatus = (Phaser.stop cfg s).1.stopStatus
    ∧ (Phaser.stop cfg (Phaser.stop cfg s).1).1.abort = (Phaser.stop cfg s).1.abort
    ∧ (Phaser.stop cfg (Phaser.stop cfg s).1).1.termination = (Phaser.stop cfg s).1.termination
    ∧ (Phaser.stop cfg (Phaser.stop cfg s).1).1.lifecycle = (Phaser.stop cfg s).1.lifecycle
    ∧ (Phaser.stop cfg (Phaser.stop cfg s).1).1.currentPhase = (Phaser.stop cfg s).1.currentPhase := by
  rcases hterm : s.termination with _ | ti
  · rcases hcp : s.currentPhase with _ | cp
    · simp [Phaser.stop, Phaser.nextPhase, Phaser.termInfo, hh, hterm, hcp]
    · cases cp <;>
        simp [Phaser.stop, Phaser.nextPhase, Phaser.termInfo, hh, hterm, hcp,
          CurrentPhase.isInit, CurrentPhase.stopStatus, CurrentPhase.phaseId]
  · simp [Phaser.stop, hterm]

/-- C8 witness: state idempotence at the concrete mid-run state. -/
theorem phaser_stop_state_idempotent_witness :
    cfgJustA.hook = Option.none ∧
    ((Phaser.stop cfgJustA (Phaser.stop cfgJustA midRunState).1).1.stopStatus
        = (Phaser.stop cfgJustA midRunState).1.stopStatus
    ∧ (Phaser.stop cfgJustA (Phaser.stop cfgJustA midRunState).1).1.abort
        = (Phaser.stop cfgJustA midRunState).1.abort
    ∧ (Phaser.stop cfgJustA (Phaser.stop cfgJustA midRunState).1).1.termination
        = (Phaser.stop cfgJustA midRunState).1.termination
    ∧ (Phaser.stop cfgJustA (Phaser.stop cfgJustA midRunState).1).1.lifecycle
        = (Phaser.stop cfgJustA midRunState).1.lifecycle
    ∧ (Phaser.stop cfgJustA (Phaser.stop cfgJustA midRunState).1).1.currentPhase
        = (Phaser.stop cfgJustA midRunState).1.currentPhase) :=
  ⟨rfl, phaser_stop_state_idempotent cfgJustA midRunState rfl⟩

/-- C10: classification of a `SystemExit` signal: the termination status is
`COMPLETED` exactly when the exit code equals `0`; in particular a null
(`None`) exit code — Python's conventional success exit with no explicit
code — is classified `FAILED` because `None == 0` is false (`phaser.py`
line 303). -/
theorem phaser_system_exit_classification (p : Phase) (s : PhaserState) (code : Option Int)
    (h : p.outcome = PhaseOutcome.systemExit code) :
    ∃ ti, (Phaser.runHandleErrors p s).1 = Option.some ti
      ∧ ti.status = (if code = Option.some 0 then TerminationStatus.completed
          else TerminationStatus.failed)
      ∧ (code = Option.none → ti.status = TerminationStatus.failed) := by
  refine ⟨⟨if code = Option.some 0 then TerminationStatus.completed
      else TerminationStatus.failed, s.clock, Option.none, Option.none⟩, ?_, rfl, ?_⟩
  · simp [Phaser.runHandleErrors, h, Phaser.termInfo]
  · intro hc
    simp [hc]

/-- C10 witness: the classification at the concrete phase raising
`SystemExit` with a null code. -/
theorem phaser_system_exit_classification_witness :
    phaseExitNone.outcome = PhaseOutcome.systemExit Option.none ∧
    ∃ ti, (Phaser.runHandleErrors phaseExitNone PhaserState.initial).1 = Option.some ti
      ∧ ti.status = (if (Option.none : Option Int) = Option.some 0
          then TerminationStatus.completed else TerminationStatus.failed)
      ∧ ((Option.none : Option Int) = Option.none → ti.status = TerminationStatus.failed) :=
  ⟨rfl, phaser_system_exit_classification phaseExitNone PhaserState.initial Option.none rfl⟩

/-- The operation-update payload the spec describes (§4.5b): name is
`OPERATION` falling back to `EVENT`, amount is `COMPLETED or INCREMENT`,
total/unit are taken as-is, and the increment flag is `INCREMENT is not
null`. -/
def mkOpCall (fields : TaskFields) : OpCall :=
  ⟨if struthy fields.operation then fields.operation else fields.event,
   if FieldValue.otruthy fields.completed then fields.completed else fields.increment,
   fields.total, fields.unit, fields.increment.isSome, fields.timestamp⟩

/-- Field map: `COMPLETED = 0` (present but falsy) with an `EVENT`. -/
def fieldsCompletedZero : TaskFields :=
  { TaskFields.empty with
      completed := Option.some (FieldValue.num 0)
      event := Option.some ("e") }

/-- Field map: `TASK = ""` (present but falsy) with an `EVENT`. -/
def fieldsEmptyTask : TaskFields :=
  { TaskFields.empty with
      task := Option.some ("")
      event := Option.some ("e") }

/-- C6 counterexample: a field map with `COMPLETED` *present* but equal to 0
produces no operation update at all — the guard in
`OutputToTask._update_operation` (`task.py` line 112) tests truthiness, not
presence — and the `EVENT` *is* delivered as an event call. -/
theorem task_completed_zero_cx :
    fieldsCompletedZero.completed.isSome = true
    ∧ (OutputToTask.updateTask TaskTracker.empty fieldsCompletedZero).root.ops = []
    ∧ (OutputToTask.updateTask TaskTracker.empty fieldsCompletedZero).subtasks = []
    ∧ (OutputToTask.updateTask TaskTracker.empty fieldsCompletedZero).root.events
        = [("e", Option.none)] := by
  refine ⟨?_, ?_, ?_, ?_⟩ <;> rfl

/-- C6 (amended): if any of `COMPLETED`, `INCREMENT`, `TOTAL`, `UNIT` is
present with a truthy value (a non-zero number or a non-empty string), then
the resolved target receives exactly one operation update carrying the
payload of `mkOpCall` (name `OPERATION` when truthy, else `EVENT`; amount
`COMPLETED or INCREMENT`; total; unit; increment flag `INCREMENT is not
null`), and no event call is made on it even if `EVENT` is present. -/
theorem task_operation_update (tr : TaskTracker) (fields : TaskFields)
    (h : FieldValue.otruthy fields.completed = true
        ∨ FieldValue.otruthy fields.increment = true
        ∨ FieldValue.otruthy fields.total = true
        ∨ struthy fields.unit = true) :
    ∃ t, OutputToTask.updateTask tr fields
        = (OutputToTask.resolveTarget tr fields).tracker.setTarget
            (OutputToTask.resolveTarget tr fields).ref t
      ∧ t.ops = (OutputToTask.resolveTarget tr fields).cur.ops ++ [mkOpCall fields]
      ∧ t.events = (OutputToTask.resolveTarget tr fields).cur.events := by
  refine ⟨OutputToTask.applyUpdates fields (OutputToTask.resolveTarget tr fields).isFin
      (OutputToTask.resolveTarget tr fields).cur, rfl, ?_, ?_⟩ <;>
  · unfold OutputToTask.applyUpdates OutputToTask.updateOperation
    rcases h with h | h | h | h <;>
      simp [h, mkOpCall] <;> split <;> simp

/-- Field map used as the C6 witness input: `OPERATION = "compile"`,
`COMPLETED = 10`, `TOTAL = 100`, `UNIT = "files"`, `EVENT = "e"`. -/
def fieldsCompileOp : TaskFields :=
  { TaskFields.empty with
      operation := Option.some ("compile")
      completed := Option.some (FieldValue.num 10)
      total := Option.some (FieldValue.num 100)
      unit := Option.some ("files")
      event := Option.some ("e") }

/-- C6 witness: the amended operation update at the concrete field map
`fieldsCompileOp`. -/
theorem task_operation_update_witness :
    (FieldValue.otruthy fieldsCompileOp.completed = true
      ∨ FieldValue.otruthy fieldsCompileOp.increment = true
      ∨ FieldValue.otruthy fieldsCompileOp.total = true
      ∨ struthy fieldsCompileOp.unit = true)
    ∧ ∃ t, OutputToTask.updateTask TaskTracker.empty fieldsCompileOp
        = (OutputToTask.resolveTarget TaskTracker.empty fieldsCompileOp).tracker.setTarget
            (OutputToTask.resolveTarget TaskTracker.empty fieldsCompileOp).ref t
      ∧ t.ops = (OutputToTask.resolveTarget TaskTracker.empty fieldsCompileOp).cur.ops
          ++ [mkOpCall fieldsCompileOp]
      ∧ t.events = (OutputToTask.resolveTarget TaskTracker.empty fieldsCompileOp).cur.events :=
  ⟨Or.inl (by decide),
    task_operation_update TaskTracker.empty fieldsCompileOp (Or.inl (by decide))⟩

/-- C7 counterexample: a field map with `TASK` *present* but equal to the
empty string never calls `tracker.subtask` — `if task:` (`task.py` line 85)
tests truthiness, not presence — and the root tracker is targeted
instead. -/
theorem task_empty_task_cx :
    fieldsEmptyTask.task.isSome = true
    ∧ (OutputToTask.updateTask TaskTracker.empty fieldsEmptyTask).subtaskCalls = []
    ∧ (OutputToTask.updateTask TaskTracker.empty fieldsEmptyTask).subtasks = []
    ∧ (OutputToTask.resolveTarget TaskTracker.empty fieldsEmptyTask).ref = TargetRef.root := by
  refine ⟨?_, ?_, ?_, ?_⟩ <;> rfl

/-- C7 (amended): subtask resolution.  If `TASK` is present *and non-empty*,
`tracker.subtask(task, ts)` is called and the (possibly new) tail subtask is
the target, and the same-object sentinel `is_finished` is raised exactly
when the previous tail subtask already had that name — in which case the
target ends up marked finished with a `finished(result, ts)` call.  If
`TASK` is absent or empty, no subtask call is made and the target is the
tail subtask when one exists and is not yet finished, otherwise the root
tracker. -/
theorem task_subtask_resolution (tr : TaskTracker) (fields : TaskFields) :
    (struthy fields.task = true →
      (OutputToTask.resolveTarget tr fields).tracker.subtaskCalls
          = tr.subtaskCalls ++ [(fields.task.getD (""), fields.timestamp)]
      ∧ (OutputToTask.resolveTarget tr fields).ref = TargetRef.tailSub
      ∧ ((OutputToTask.resolveTarget tr fields).isFin = true
          ↔ (tr.subtasks.getLast?).map TrackedTask.name = fields.task))
    ∧ (struthy fields.task = false →
      (OutputToTask.resolveTarget tr fields).tracker = tr
      ∧ (OutputToTask.resolveTarget tr fields).isFin = false
      ∧ (OutputToTask.resolveTarget tr fields).ref
          = (match tr.subtasks.getLast? with
             | Option.some t => if t.isFinished then TargetRef.root else TargetRef.tailSub
             | Option.none => TargetRef.root))
    ∧ ((OutputToTask.resolveTarget tr fields).isFin = true →
      ∃ t, OutputToTask.updateTask tr fields
          = (OutputToTask.resolveTarget tr fields).tracker.setTarget
              (OutputToTask.resolveTarget tr fields).ref t
        ∧ t.isFinished = true
        ∧ t.doneCalls = (OutputToTask.resolveTarget tr fields).cur.doneCalls
            ++ [(fields.result, fields.timestamp)]) := by
  refine ⟨?_, ?_, ?_⟩
  · intro hs
    rcases hft : fields.task with _ | name
    · rw [hft] at hs
      simp [struthy] at hs
    · rw [hft] at hs
      rcases hp : tr.subtasks.getLast? with _ | t
      · simp [OutputToTask.resolveTarget, hft, hs, hp]
      · by_cases hn : t.name = name <;>
          simp [OutputToTask.resolveTarget, hft, hs, hp, hn]
  · intro hs
    rcases hp : tr.subtasks.getLast? with _ | t
    · simp [OutputToTask.resolveTarget, hs, hp]
    · cases hf : t.isFinished <;>
        simp [OutputToTask.resolveTarget, hs, hp, hf]
  · intro hfin
    refine ⟨OutputToTask.applyUpdates fields (OutputToTask.resolveTarget tr fields).isFin
        (OutputToTask.resolveTarget tr fields).cur, rfl, ?_, ?_⟩ <;>
    · unfold OutputToTask.applyUpdates OutputToTask.updateOperation
      simp [hfin] <;> split <;> simp <;> split <;> simp

/-- Tracker holding one unfinished subtask named `build`. -/
def trackerWithBuild : TaskTracker :=
  ⟨TrackedTask.fresh (""), [TrackedTask.fresh ("build")], []⟩

/-- Field map whose `TASK` is `build`. -/
def fieldsBuildTask : TaskFields :=
  { TaskFields.empty with task := Option.some ("build") }

/-- C7 witness: resolution at a tracker whose tail subtask is `build` and a
field map naming `build` again. -/
theorem task_subtask_resolution_witness :
    struthy fieldsBuildTask.task = true ∧
    ((OutputToTask.resolveTarget trackerWithBuild fieldsBuildTask).tracker.subtaskCalls
        = trackerWithBuild.subtaskCalls
          ++ [(fieldsBuildTask.task.getD (""), fieldsBuildTask.timestamp)]
      ∧ (OutputToTask.resolveTarget trackerWithBuild fieldsBuildTask).ref = TargetRef.tailSub
      ∧ ((OutputToTask.resolveTarget trackerWithBuild fieldsBuildTask).isFin = true
          ↔ (trackerWithBuild.subtasks.getLast?).map TrackedTask.name = fieldsBuildTask.task)) :=
  ⟨by decide, (task_subtask_resolution trackerWithBuild fieldsBuildTask).1 (by decide)⟩

/-! ## Helper lemmas for the run-loop inductions -/

lemma getLast?_append_singleton {α : Type} (l : List α) (a : α) :
    (l ++ [a]).getLast? = Option.some a := by
  induction l with
  | nil => rfl
  | cons x xs ih =>
      rw [List.cons_append, List.getLast?_cons, ih]
      cases xs <;> rfl

lemma TerminationStatus.isSet_iff_ne (st : TerminationStatus) :
    st.isSet = true ↔ st ≠ TerminationStatus.noneStatus := by
  cases st <;> simp [TerminationStatus.isSet]

lemma TerminationStatus.isSet_iff_mem (st : TerminationStatus) :
    st.isSet = true ↔
      st ∈ [TerminationStatus.completed, TerminationStatus.stopped,
        TerminationStatus.interrupted, TerminationStatus.failed,
        TerminationStatus.error] := by
  cases st <;> decide

/-- Advancing over a phase that returns normally, with no stop scheduled
during it and no stop pending: one `runLoop` iteration only appends the
phase's `PhaseRun` and moves the cursor. -/
lemma runLoop_cons_normal (cfg : PhaserConfig) (hh : cfg.hook = Option.none)
    (p : Phase) (rest : List Phase) (stops : List Bool) (s : PhaserState)
    (hp : p.outcome = PhaseOutcome.normal)
    (hstop : stops.head?.getD false = false)
    (ha : s.abort = false) (hss : s.stopStatus = TerminationStatus.noneStatus)
    (ht : s.termination = Option.none) :
    Phaser.runLoop cfg stops (p :: rest) s
      = Phaser.runLoop cfg stops.tail rest
          { s with
              currentPhase := Option.some (CurrentPhase.user p)
              lifecycle := s.lifecycle ++ [⟨p.id, p.runState, s.clock⟩]
              clock := s.clock + 1 } := by
  simp [Phaser.runLoop, Phaser.nextPhase, Phaser.runHandleErrors, Phaser.termInfo,
    hh, hp, hstop, ha, hss, ht, TerminationStatus.isSet,
    CurrentPhase.phaseId, CurrentPhase.runState]

/-- A `stop()` landing while the head phase runs: provided the stopping
phase's `stop_status` is truthy, the loop records exactly that status as the
final termination, whatever the phase's own outcome. -/
lemma runLoop_stop_during_head (cfg : PhaserConfig) (hh : cfg.hook = Option.none)
    (p : Phase) (rest : List Phase) (stR : List Bool) (s : PhaserState)
    (hss : p.stopStatus.isSet = true)
    (ha : s.abort = false) (hs : s.stopStatus = TerminationStatus.noneStatus)
    (ht : s.termination = Option.none) :
    (((Phaser.runLoop cfg (true :: stR) (p :: rest) s).1.termination).map
      TerminationInfo.status) = Option.some p.stopStatus := by
  cases hout : p.outcome <;>
    simp [Phaser.runLoop, Phaser.nextPhase, Phaser.stop, Phaser.runHandleErrors,
      Phaser.termInfo, hh, ha, hs, ht, hout, hss, CurrentPhase.isInit,
      CurrentPhase.stopStatus, CurrentPhase.phaseId, CurrentPhase.runState]

/-- Stop-wins, generalised over a prefix of normally-returning phases with
no stop scheduled during them. -/
lemma runLoop_stop_wins_aux (cfg : PhaserConfig) (hh : cfg.hook = Option.none)
    (p : Phase) (post : List Phase) (hss : p.stopStatus.isSet = true) :
    ∀ (pre : List Phase) (stR : List Bool) (s : PhaserState),
      (∀ q ∈ pre, q.outcome = PhaseOutcome.normal) →
      s.abort = false → s.stopStatus = TerminationStatus.noneStatus →
      s.termination = Option.none →
      (((Phaser.runLoop cfg (List.replicate pre.length false ++ true :: stR)
          (pre ++ p :: post) s).1.termination).map TerminationInfo.status)
        = Option.some p.stopStatus := by
  intro pre
  induction pre with
  | nil =>
      intro stR s hpre ha hs ht
      simpa using runLoop_stop_during_head cfg hh p post stR s hss ha hs ht
  | cons q qs ih =>
      intro stR s hpre ha hs ht
      have hq : q.outcome = PhaseOutcome.normal := hpre q (by simp)
      rw [List.length_cons, List.replicate_succ, List.cons_append, List.cons_append,
        runLoop_cons_normal cfg hh q (qs ++ p :: post) _ s hq (by simp) ha hs ht]
      simpa using ih stR _ (fun r hr => hpre r (by simp [hr])) (by simp [ha]) (by simp [hs])
        (by simp [ht])

/-- C2: stop wins over the phase's own outcome.  For any run in which the
concurrent `stop()` lands while phase `p` is executing (after a prefix of
normally-returning phases) and `p`'s `stop_status` is a truthy (non-NONE)
status, the final termination status is exactly `p.stopStatus`, whatever
`p`'s own outcome was — `Phaser.run` checks `if self._stop_status:` before
adopting the phase's own `term_info` (`phaser.py` lines 267-270). -/
theorem phaser_stop_wins (pre : List Phase) (p : Phase) (post : List Phase)
    (stR : List Bool)
    (hpre : ∀ q ∈ pre, q.outcome = PhaseOutcome.normal)
    (hss : p.stopStatus.isSet = true) :
    (((Phaser.run ⟨pre ++ p :: post, Option.none⟩
        (List.replicate pre.length false ++ true :: stR)
        (Phaser.prime ⟨pre ++ p :: post, Option.none⟩ PhaserState.initial).1).1.termination).map
      TerminationInfo.status) = Option.some p.stopStatus :=
  runLoop_stop_wins_aux ⟨pre ++ p :: post, Option.none⟩ rfl p post hss pre stR
    ⟨[⟨"Init", RunState.created, 0⟩], Option.some CurrentPhase.init,
      TerminationStatus.noneStatus, false, Option.none, 1, []⟩
    hpre rfl rfl rfl

/-- C2 witness: stop during phase `A` (which would return normally) of the
`[A, B]` configuration — the recorded status is `A.stop_status`
(`STOPPED`), not `COMPLETED`. -/
theorem phaser_stop_wins_witness :
    (∀ q ∈ ([] : List Phase), q.outcome = PhaseOutcome.normal)
    ∧ phaseA.stopStatus.isSet = true
    ∧ (((Phaser.run ⟨[] ++ phaseA :: [phaseB], Option.none⟩
        (List.replicate (List.length ([] : List Phase)) false ++ true :: [])
        (Phaser.prime ⟨[] ++ phaseA :: [phaseB], Option.none⟩
          PhaserState.initial).1).1.termination).map TerminationInfo.status)
      = Option.some phaseA.stopStatus :=
  ⟨by simp, by decide, phaser_stop_wins [] phaseA [phaseB] [] (by simp) (by decide)⟩

lemma getLast?_append_pair {α : Type} (l : List α) (a b : α) :
    (l ++ [a, b]).getLast? = Option.some b := by
  have h : l ++ [a, b] = (l ++ [a]) ++ [b] := by simp
  rw [h, getLast?_append_singleton]

/-- Head phase raising an unexpected exception, no stop pending: the loop
records `ERROR` with the `(category, message)` payload, transitions to
Terminal and re-raises. -/
lemma runLoop_raise_head (cfg : PhaserConfig) (hh : cfg.hook = Option.none)
    (p : Phase) (rest : List Phase) (s : PhaserState) (cat msg : String)
    (hout : p.outcome = PhaseOutcome.raiseExc cat msg)
    (ha : s.abort = false) (hs : s.stopStatus = TerminationStatus.noneStatus)
    (ht : s.termination = Option.none) :
    (Phaser.runLoop cfg [] (p :: rest) s).2 = Option.some (RunExc.phaseExc cat msg)
    ∧ (Phaser.runLoop cfg [] (p :: rest) s).1.termination
        = Option.some ⟨TerminationStatus.error, s.clock + 1, Option.none, Option.some ⟨cat, msg⟩⟩
    ∧ (Phaser.runLoop cfg [] (p :: rest) s).1.currentPhase = Option.some CurrentPhase.terminal
    ∧ (Phaser.runLoop cfg [] (p :: rest) s).1.lifecycle
        = s.lifecycle ++ [⟨p.id, p.runState, s.clock⟩, ⟨"term", RunState.ended, s.clock + 2⟩] := by
  refine ⟨?_, ?_, ?_, ?_⟩ <;>
    simp [Phaser.runLoop, Phaser.nextPhase, Phaser.runHandleErrors, Phaser.termInfo,
      hh, ha, hs, ht, hout, CurrentPhase.phaseId, CurrentPhase.runState,
      TerminationStatus.isSet]

/-- Unexpected-exception behaviour generalised over a prefix of
normally-returning phases. -/
lemma runLoop_raise_aux (cfg : PhaserConfig) (hh : cfg.hook = Option.none)
    (p : Phase) (post : List Phase) (cat msg : String)
    (hout : p.outcome = PhaseOutcome.raiseExc cat msg) :
    ∀ (pre : List Phase) (s : PhaserState),
      (∀ q ∈ pre, q.outcome = PhaseOutcome.normal) →
      s.abort = false → s.stopStatus = TerminationStatus.noneStatus →
      s.termination = Option.none →
      (Phaser.runLoop cfg [] (pre ++ p :: post) s).2 = Option.some (RunExc.phaseExc cat msg)
      ∧ (∃ c, (Phaser.runLoop cfg [] (pre ++ p :: post) s).1.termination
          = Option.some ⟨TerminationStatus.error, c, Option.none, Option.some ⟨cat, msg⟩⟩)
      ∧ (Phaser.runLoop cfg [] (pre ++ p :: post) s).1.currentPhase
          = Option.some CurrentPhase.terminal
      ∧ (∃ c, (Phaser.runLoop cfg [] (pre ++ p :: post) s).1.lifecycle.getLast?
          = Option.some ⟨"term", RunState.ended, c⟩) := by
  intro pre
  induction pre with
  | nil =>
      intro s hpre ha hs ht
      obtain ⟨h1, h2, h3, h4⟩ := runLoop_raise_head cfg hh p post s cat msg hout ha hs ht
      exact ⟨h1, ⟨s.clock + 1, h2⟩, h3,
        ⟨s.clock + 2, by simp only [List.nil_append]; rw [h4, getLast?_append_pair]⟩⟩
  | cons q qs ih =>
      intro s hpre ha hs ht
      have hq : q.outcome = PhaseOutcome.normal := hpre q (by simp)
      rw [List.cons_append,
        runLoop_cons_normal cfg hh q (qs ++ p :: post) [] s hq (by simp) ha hs ht]
      exact ih _ (fun r hr => hpre r (by simp [hr])) (by simp [ha]) (by simp [hs])
        (by simp [ht])

/-- A user phase raising `ValueError("boom")`. -/
def phaseBoom : Phase :=
  ⟨"A", RunState.executing, TerminationStatus.stopped,
    PhaseOutcome.raiseExc ("ValueError") ("boom")⟩

/-- C4: for every phase raising an unexpected exception (after a prefix of
normally-returning phases), `run` records termination `ERROR` with error
payload `(category, message)`, transitions to Terminal, and re-raises the
same exception (`phaser.py` lines 293-296, 272-275). -/
theorem phaser_unexpected_exception (pre post : List Phase) (p : Phase) (cat msg : String)
    (hpre : ∀ q ∈ pre, q.outcome = PhaseOutcome.normal)
    (hout : p.outcome = PhaseOutcome.raiseExc cat msg) :
    (Phaser.run ⟨pre ++ p :: post, Option.none⟩ []
        (Phaser.prime ⟨pre ++ p :: post, Option.none⟩ PhaserState.initial).1).2
      = Option.some (RunExc.phaseExc cat msg)
    ∧ (∃ c, (Phaser.run ⟨pre ++ p :: post, Option.none⟩ []
        (Phaser.prime ⟨pre ++ p :: post, Option.none⟩ PhaserState.initial).1).1.termination
      = Option.some ⟨TerminationStatus.error, c, Option.none, Option.some ⟨cat, msg⟩⟩)
    ∧ (Phaser.run ⟨pre ++ p :: post, Option.none⟩ []
        (Phaser.prime ⟨pre ++ p :: post, Option.none⟩ PhaserState.initial).1).1.currentPhase
      = Option.some CurrentPhase.terminal
    ∧ (∃ c, (Phaser.run ⟨pre ++ p :: post, Option.none⟩ []
        (Phaser.prime ⟨pre ++ p :: post, Option.none⟩ PhaserState.initial).1).1.lifecycle.getLast?
      = Option.some ⟨"term", RunState.ended, c⟩) :=
  runLoop_raise_aux ⟨pre ++ p :: post, Option.none⟩ rfl p post cat msg hout pre
    ⟨[⟨"Init", RunState.created, 0⟩], Option.some CurrentPhase.init,
      TerminationStatus.noneStatus, false, Option.none, 1, []⟩
    hpre rfl rfl rfl

/-- C4 witness: phase `A` raising `ValueError("boom")` alone in the
configuration. -/
theorem phaser_unexpected_exception_witness :
    (∀ q ∈ ([] : List Phase), q.outcome = PhaseOutcome.normal)
    ∧ phaseBoom.outcome = PhaseOutcome.raiseExc ("ValueError") ("boom")
    ∧ ((Phaser.run ⟨[] ++ phaseBoom :: [], Option.none⟩ []
        (Phaser.prime ⟨[] ++ phaseBoom :: [], Option.none⟩ PhaserState.initial).1).2
      = Option.some (RunExc.phaseExc ("ValueError") ("boom"))
    ∧ (∃ c, (Phaser.run ⟨[] ++ phaseBoom :: [], Option.none⟩ []
        (Phaser.prime ⟨[] ++ phaseBoom :: [], Option.none⟩ PhaserState.initial).1).1.termination
      = Option.some ⟨TerminationStatus.error, c, Option.none,
          Option.some ⟨("ValueError"), ("boom")⟩⟩)
    ∧ (Phaser.run ⟨[] ++ phaseBoom :: [], Option.none⟩ []
        (Phaser.prime ⟨[] ++ phaseBoom :: [], Option.none⟩ PhaserState.initial).1).1.currentPhase
      = Option.some CurrentPhase.terminal
    ∧ (∃ c, (Phaser.run ⟨[] ++ phaseBoom :: [], Option.none⟩ []
        (Phaser.prime ⟨[] ++ phaseBoom :: [], Option.none⟩
          PhaserState.initial).1).1.lifecycle.getLast?
      = Option.some ⟨"term", RunState.ended, c⟩)) :=
  ⟨by simp, rfl,
    phaser_unexpected_exception [] [] phaseBoom ("ValueError") ("boom") (by simp) rfl⟩

/-- Advancing over a normally-returning phase during which a `stop()` lands
whose `stop_status` is the falsy `NONE`: the stop is recorded (including the
`phase.stop()` call) but does not win, and the loop continues. -/
lemma runLoop_cons_normal_stopped (cfg : PhaserConfig) (hh : cfg.hook = Option.none)
    (p : Phase) (rest : List Phase) (stops : List Bool) (s : PhaserState)
    (hp : p.outcome = PhaseOutcome.normal)
    (hb : stops.head?.getD false = true)
    (hpsn : p.stopStatus = TerminationStatus.noneStatus)
    (ha : s.abort = false) (hs : s.stopStatus = TerminationStatus.noneStatus)
    (ht : s.termination = Option.none) :
    Phaser.runLoop cfg stops (p :: rest) s
      = Phaser.runLoop cfg stops.tail rest
          { s with
              currentPhase := Option.some (CurrentPhase.user p)
              lifecycle := s.lifecycle ++ [⟨p.id, p.runState, s.clock⟩]
              stopStatus := TerminationStatus.noneStatus
              clock := s.clock + 1
              stopCalls := s.stopCalls ++ [p.id] } := by
  simp [Phaser.runLoop, Phaser.nextPhase, Phaser.stop, Phaser.runHandleErrors,
    Phaser.termInfo, hh, hp, hb, hpsn, ha, hs, ht, TerminationStatus.isSet,
    CurrentPhase.isInit, CurrentPhase.stopStatus, CurrentPhase.phaseId,
    CurrentPhase.runState]

lemma isSet_noneStatus : TerminationStatus.noneStatus.isSet = false := rfl

/-- Terminal invariant of the run loop: provided no phase signals
`TerminateRun` with the falsy `NONE` status, every completed loop leaves a
non-null termination with a truthy status and a lifecycle ending in the
Terminal entry — whatever the phase outcomes and wherever stops land. -/
lemma runLoop_invariant_aux (cfg : PhaserConfig) (hh : cfg.hook = Option.none) :
    ∀ (phases : List Phase) (stops : List Bool) (s : PhaserState),
      (∀ p ∈ phases, ∀ st, p.outcome = PhaseOutcome.terminateRun st → st.isSet = true) →
      s.abort = false → s.stopStatus = TerminationStatus.noneStatus →
      s.termination = Option.none →
      (∃ ti, (Phaser.runLoop cfg stops phases s).1.termination = Option.some ti
        ∧ ti.status.isSet = true)
      ∧ (∃ c, (Phaser.runLoop cfg stops phases s).1.lifecycle.getLast?
          = Option.some ⟨"term", RunState.ended, c⟩) := by
  intro phases
  induction phases with
  | nil =>
      intro stops s hgood ha hs ht
      refine ⟨⟨⟨TerminationStatus.completed, s.clock, Option.none, Option.none⟩, ?_, rfl⟩,
        ⟨s.clock + 1, ?_⟩⟩ <;>
        simp [Phaser.runLoop, Phaser.nextPhase, Phaser.termInfo, hh,
          CurrentPhase.phaseId, CurrentPhase.runState, getLast?_append_singleton]
  | cons p rest ih =>
      intro stops s hgood ha hs ht
      have hgood' : ∀ q ∈ rest, ∀ st, q.outcome = PhaseOutcome.terminateRun st →
          st.isSet = true := fun q hq => hgood q (by simp [hq])
      cases hb : stops.head?.getD false with
      | false =>
          cases hout : p.outcome with
          | normal =>
              rw [runLoop_cons_normal cfg hh p rest stops s hout hb ha hs ht]
              exact ih stops.tail _ hgood' (by simp [ha]) (by simp [hs]) (by simp [ht])
          | terminateRun st =>
              have hst : st.isSet = true := hgood p (by simp) st hout
              refine ⟨?_, ?_⟩ <;>
                simp [Phaser.runLoop, Phaser.nextPhase, Phaser.runHandleErrors,
                  Phaser.termInfo, hh, ha, hs, ht, hout, hb, hst, isSet_noneStatus,
                  CurrentPhase.phaseId, CurrentPhase.runState,
                  getLast?_append_pair]
          | failedRun fault =>
              refine ⟨?_, ?_⟩ <;>
                simp [Phaser.runLoop, Phaser.nextPhase, Phaser.runHandleErrors,
                  Phaser.termInfo, hh, ha, hs, ht, hout, hb,
                  CurrentPhase.phaseId, CurrentPhase.runState, TerminationStatus.isSet,
                  getLast?_append_pair]
          | raiseExc cat msg =>
              refine ⟨?_, ?_⟩ <;>
                simp [Phaser.runLoop, Phaser.nextPhase, Phaser.runHandleErrors,
                  Phaser.termInfo, hh, ha, hs, ht, hout, hb,
                  CurrentPhase.phaseId, CurrentPhase.runState, TerminationStatus.isSet,
                  getLast?_append_pair]
          | keyboardInterrupt =>
              refine ⟨?_, ?_⟩ <;>
                simp [Phaser.runLoop, Phaser.nextPhase, Phaser.runHandleErrors,
                  Phaser.termInfo, hh, ha, hs, ht, hout, hb,
                  CurrentPhase.phaseId, CurrentPhase.runState, TerminationStatus.isSet,
                  getLast?_append_pair]
          | systemExit code =>
              by_cases hc : code = Option.some 0 <;>
                refine ⟨?_, ?_⟩ <;>
                simp [Phaser.runLoop, Phaser.nextPhase, Phaser.runHandleErrors,
                  Phaser.termInfo, hh, ha, hs, ht, hout, hb, hc,
                  CurrentPhase.phaseId, CurrentPhase.runState, TerminationStatus.isSet,
                  getLast?_append_pair]
      | true =>
          cases hps : p.stopStatus.isSet with
          | true =>
              cases hout : p.outcome <;>
                (refine ⟨?_, ?_⟩ <;>
                  simp [Phaser.runLoop, Phaser.nextPhase, Phaser.stop,
                    Phaser.runHandleErrors, Phaser.termInfo, hh, ha, hs, ht, hout, hb, hps,
                    CurrentPhase.isInit, CurrentPhase.stopStatus, CurrentPhase.phaseId,
                    CurrentPhase.runState, getLast?_append_pair])
          | false =>
              have hpsn : p.stopStatus = TerminationStatus.noneStatus := by
                cases hpp : p.stopStatus <;> rw [hpp] at hps <;>
                  first
                    | rfl
                    | simp [TerminationStatus.isSet] at hps
              cases hout : p.outcome with
              | normal =>
                  rw [runLoop_cons_normal_stopped cfg hh p rest stops s hout hb hpsn ha hs ht]
                  exact ih stops.tail _ hgood' (by simp [ha]) (by simp) (by simp [ht])
              | terminateRun st =>
                  have hst : st.isSet = true := hgood p (by simp) st hout
                  refine ⟨?_, ?_⟩ <;>
                    simp [Phaser.runLoop, Phaser.nextPhase, Phaser.stop,
                      Phaser.runHandleErrors, Phaser.termInfo, hh, ha, hs, ht, hout, hb,
                      hpsn, hst, isSet_noneStatus, CurrentPhase.isInit, CurrentPhase.stopStatus,
                      CurrentPhase.phaseId, CurrentPhase.runState,
                      getLast?_append_pair]
              | failedRun fault =>
                  refine ⟨?_, ?_⟩ <;>
                    simp [Phaser.runLoop, Phaser.nextPhase, Phaser.stop,
                      Phaser.runHandleErrors, Phaser.termInfo, hh, ha, hs, ht, hout, hb,
                      hpsn, CurrentPhase.isInit, CurrentPhase.stopStatus,
                      CurrentPhase.phaseId, CurrentPhase.runState, TerminationStatus.isSet,
                      getLast?_append_pair]
              | raiseExc cat msg =>
                  refine ⟨?_, ?_⟩ <;>
                    simp [Phaser.runLoop, Phaser.nextPhase, Phaser.stop,
                      Phaser.runHandleErrors, Phaser.termInfo, hh, ha, hs, ht, hout, hb,
                      hpsn, CurrentPhase.isInit, CurrentPhase.stopStatus,
                      CurrentPhase.phaseId, CurrentPhase.runState, TerminationStatus.isSet,
                      getLast?_append_pair]
              | keyboardInterrupt =>
                  refine ⟨?_, ?_⟩ <;>
                    simp [Phaser.runLoop, Phaser.nextPhase, Phaser.stop,
                      Phaser.runHandleErrors, Phaser.termInfo, hh, ha, hs, ht, hout, hb,
                      hpsn, CurrentPhase.isInit, CurrentPhase.stopStatus,
                      CurrentPhase.phaseId, CurrentPhase.runState, TerminationStatus.isSet,
                      getLast?_append_pair]
              | systemExit code =>
                  by_cases hc : code = Option.some 0 <;>
                    refine ⟨?_, ?_⟩ <;>
                    simp [Phaser.runLoop, Phaser.nextPhase, Phaser.stop,
                      Phaser.runHandleErrors, Phaser.termInfo, hh, ha, hs, ht, hout, hb,
                      hpsn, hc, CurrentPhase.isInit, CurrentPhase.stopStatus,
                      CurrentPhase.phaseId, CurrentPhase.runState, TerminationStatus.isSet,
                      getLast?_append_pair]

/-- C5 (amended): for every run of a primed Phaser (no hook installed),
whenever `run` finishes — normally or by re-raising — the lifecycle's last
entry is the Terminal phase and the recorded termination is non-null; and
provided no phase signals `TerminateRun` with the `NONE` status, the
termination status is one of {COMPLETED, STOPPED, INTERRUPTED, FAILED,
ERROR}. -/
theorem phaser_run_terminal_invariant (phases : List Phase) (stops : List Bool)
    (hgood : ∀ p ∈ phases, ∀ st, p.outcome = PhaseOutcome.terminateRun st →
        st ≠ TerminationStatus.noneStatus) :
    (∃ c, (Phaser.run ⟨phases, Option.none⟩ stops
        (Phaser.prime ⟨phases, Option.none⟩ PhaserState.initial).1).1.lifecycle.getLast?
      = Option.some ⟨"term", RunState.ended, c⟩)
    ∧ ∃ ti, (Phaser.run ⟨phases, Option.none⟩ stops
        (Phaser.prime ⟨phases, Option.none⟩ PhaserState.initial).1).1.termination
      = Option.some ti
      ∧ ti.status ∈ [TerminationStatus.completed, TerminationStatus.stopped,
          TerminationStatus.interrupted, TerminationStatus.failed,
          TerminationStatus.error] := by
  have h := runLoop_invariant_aux ⟨phases, Option.none⟩ rfl phases stops
    ⟨[⟨"Init", RunState.created, 0⟩], Option.some CurrentPhase.init,
      TerminationStatus.noneStatus, false, Option.none, 1, []⟩
    (fun p hp st hst => (TerminationStatus.isSet_iff_ne st).mpr (hgood p hp st hst))
    rfl rfl rfl
  obtain ⟨⟨ti, hti, hset⟩, hlast⟩ := h
  exact ⟨hlast, ⟨ti, hti, (TerminationStatus.isSet_iff_mem ti.status).mp hset⟩⟩

/-- C5 witness: the invariant at the concrete `[A, B]` configuration. -/
theorem phaser_run_terminal_invariant_witness :
    (∀ p ∈ [phaseA, phaseB], ∀ st, p.outcome = PhaseOutcome.terminateRun st →
        st ≠ TerminationStatus.noneStatus)
    ∧ ((∃ c, (Phaser.run ⟨[phaseA, phaseB], Option.none⟩ []
        (Phaser.prime ⟨[phaseA, phaseB], Option.none⟩
          PhaserState.initial).1).1.lifecycle.getLast?
      = Option.some ⟨"term", RunState.ended, c⟩)
    ∧ ∃ ti, (Phaser.run ⟨[phaseA, phaseB], Option.none⟩ []
        (Phaser.prime ⟨[phaseA, phaseB], Option.none⟩
          PhaserState.initial).1).1.termination
      = Option.some ti
      ∧ ti.status ∈ [TerminationStatus.completed, TerminationStatus.stopped,
          TerminationStatus.interrupted, TerminationStatus.failed,
          TerminationStatus.error]) :=
  ⟨by
      intro p hp st hst
      simp only [List.mem_cons, List.not_mem_nil, or_false] at hp
      rcases hp with rfl | rfl <;> simp [phaseA, phaseB] at hst,
    phaser_run_terminal_invariant [phaseA, phaseB] []
      (by
        intro p hp st hst
        simp only [List.mem_cons, List.not_mem_nil, or_false] at hp
        rcases hp with rfl | rfl <;> simp [phaseA, phaseB] at hst)⟩
